import Mathlib

/-!
Verification development for the MathExpressionParser library.

The token model, the token factories, the pair-matching (backpatch) scan,
the evaluator and the stringifier are embedded from the C++ sources
(`MathExpressions.cpp` and its headers).  The generic parsing engine
(`Parser::Engine::Tokenize` / `Parser::Engine::Parse`) lives in a separate
repository and is not part of the sources; those two loops are modelled from
the specification, as marked on the corresponding definitions.

Numbers are `long double` in the library; the carrier is modelled as `ℚ`
and every transcendental primitive (`powl`, `logl`, `sinl`, ...) is a field
of an abstract `Ops` structure, so all control flow, arity checking and
error propagation of the sources is captured exactly while the evaluator
stays executable.
-/

attribute [local semireducible] Rat.add Rat.mul Rat.sub Rat.inv

/-- Abstract numeric primitives used by the token evaluation rules.
Each field corresponds to one C runtime function (or constant) invoked by
`MathExpressions::*::Evaluate`. -/
structure Ops where
  piConst : ℚ
  eulerConst : ℚ
  powf : ℚ → ℚ → ℚ
  ln : ℚ → ℚ
  log2f : ℚ → ℚ
  log10f : ℚ → ℚ
  expf : ℚ → ℚ
  sqrtf : ℚ → ℚ
  sinf : ℚ → ℚ
  cosf : ℚ → ℚ
  tanf : ℚ → ℚ
  asinf : ℚ → ℚ
  acosf : ℚ → ℚ
  atanf : ℚ → ℚ
  sinhf : ℚ → ℚ
  coshf : ℚ → ℚ
  tanhf : ℚ → ℚ
  asinhf : ℚ → ℚ
  acoshf : ℚ → ℚ
  atanhf : ℚ → ℚ

/-- The closed set of token variants of `MathExpressions` (one constructor
per concrete token class; `bracket` carries the `Variant` flag of
`DistinctPair`, `false` = opening, `true` = closing). -/
inductive TokenKind where
  | number
  | pythagorean
  | exponentConst
  | varTok
  | add
  | sub
  | mul
  | div
  | pow
  | bracket (closing : Bool)
  | modBracket
  | logarithmE
  | logarithm2
  | logarithm10
  | logarithm
  | exponentFunc
  | squareRoot
  | sign
  | sine
  | cosine
  | tangent
  | cotangent
  | arcsine
  | arccosine
  | arctangent
  | hyperbolicSine
  | hyperbolicCosine
  | hyperbolicTangent
  | hyperbolicArcsine
  | hyperbolicArccosine
  | hyperbolicArctangent
  | paramSeparator
  deriving DecidableEq, Repr

/-- A token: its variant together with the source span it was recognized
from (`SourcedToken::Source`). -/
structure Token where
  kind : TokenKind
  source : String
  deriving DecidableEq, Repr

/-- AST node: a token payload and an ordered list of child nodes
(`Tree<Parser::TokenPtr>::Node`). -/
inductive AST where
  | node (tk : Token) (children : List AST)

/-- Variable environment (`MathExpressions::Environment`,
an `unordered_map<string, long double>`). -/
abbrev Env := List (String × ℚ)

/-- The error taxonomy of `Exceptions.hpp` plus the wrapper errors raised
by `MathExpressions::Evaluate` itself.  `count cur exp` records the two
size arguments of `UnexpectedSubexpressionCount` in the order they are
passed at each throw site.  `fuelExhausted` is an artifact of the fueled
recursion used for the externally-modelled engine loops; it is never
reached at the inputs appearing in the theorems. -/
inductive EvalError where
  | incorrectlyFormedNumber (pos : Nat)
  | unrecognizedCharacter (pos : Nat)
  | noMatchingToken
  | count (cur exp : Nat)
  | wrongTokenType
  | divisionByZero
  | negativeNumberRoot
  | unresolvedSymbol (name : String)
  | unexpectedSeparator
  | emptyExpression
  | rootNotMathToken
  | fuelExhausted
  deriving DecidableEq, Repr

/-- `SIZE_MAX` of the 64-bit `size_t` returned by
`std::numeric_limits<size_t>::max()`. -/
def SIZE_MAX : Nat := 2 ^ 64 - 1

/-- `GetPriority` of each token class.  `Numeric::GetPriority` and
`Bracket::GetPriority` and `ModBracket::GetPriority` return `SIZE_MAX`;
`Add`/`Sub` return 1, `Mul`/`Div` 2, `Pow` 3, `Function::GetPriority` 4.
`ParamSeparator` is not a `MathExpressions::Token` and has no priority. -/
def GetPriority : TokenKind → Option Nat
  | .number | .pythagorean | .exponentConst | .varTok => some SIZE_MAX
  | .add | .sub => some 1
  | .mul | .div => some 2
  | .pow => some 3
  | .bracket _ => some SIZE_MAX
  | .modBracket => some SIZE_MAX
  | .paramSeparator => none
  | _ => some 4

/-- The function token classes (every subclass of
`MathExpressions::Function`). -/
def isFunctionKind : TokenKind → Bool
  | .logarithmE | .logarithm2 | .logarithm10 | .logarithm | .exponentFunc
  | .squareRoot | .sign | .sine | .cosine | .tangent | .cotangent
  | .arcsine | .arccosine | .arctangent | .hyperbolicSine
  | .hyperbolicCosine | .hyperbolicTangent | .hyperbolicArcsine
  | .hyperbolicArccosine | .hyperbolicArctangent => true
  | _ => false

/-- The paired token classes (subclasses of `MathExpressions::Pair`):
brackets, modulus brackets and all functions. -/
def isPairKind (k : TokenKind) : Bool :=
  (match k with | .bracket _ => true | .modBracket => true | _ => false)
    || isFunctionKind k

/-- Subclasses of `MathExpressions::DistinctPair`: brackets and functions. -/
def isDistinctPairKind (k : TokenKind) : Bool :=
  (match k with | .bracket _ => true | _ => false) || isFunctionKind k

/-- `std::stold` applied to a digits-and-one-dot source span: the numeric
value of a `Number` token. -/
def digitsVal (l : List Char) : Nat :=
  l.foldl (fun a c => a * 10 + (c.toNat - 48)) 0

/-- Splits a character list at the first decimal point, if any. -/
def splitAtDot : List Char → List Char × Option (List Char)
  | [] => ([], none)
  | c :: rest =>
    if c = '.' then ([], some rest)
    else
      let p := splitAtDot rest
      (c :: p.1, p.2)

/-- Numeric value of a `Number` token source string (integer part and
optional fractional part). -/
def parseNumber (s : String) : ℚ :=
  match splitAtDot s.toList with
  | (w, none) => (digitsVal w : ℚ)
  | (w, some f) => (digitsVal w : ℚ) + (digitsVal f : ℚ) / (10 ^ f.length)

/-- The division loop of `Div::Evaluate`: starting from the first child
value, each further value is first compared against zero
(`DivisionByZero`) and then divided into the accumulator. -/
def divFold (res : ℚ) : List ℚ → Except EvalError ℚ
  | [] => .ok res
  | v :: rest => if v = 0 then .error .divisionByZero else divFold (res / v) rest

/-- The one-argument numeric rule of each unary function class
(`LogarithmE::Evaluate` ... `HyperbolicArctangent::Evaluate`).
`SquareRoot` raises `NegativeNumberRoot` on a negative argument. -/
def unaryApply (k : TokenKind) (ops : Ops) (v : ℚ) : Except EvalError ℚ :=
  match k with
  | .logarithmE => .ok (ops.ln v)
  | .logarithm2 => .ok (ops.log2f v)
  | .logarithm10 => .ok (ops.log10f v)
  | .exponentFunc => .ok (ops.expf v)
  | .squareRoot => if v < 0 then .error .negativeNumberRoot else .ok (ops.sqrtf v)
  | .sign => .ok (if v = 0 then 0 else if v > 0 then 1 else -1)
  | .sine => .ok (ops.sinf v)
  | .cosine => .ok (ops.cosf v)
  | .tangent => .ok (ops.tanf v)
  | .cotangent => .ok (1 / ops.tanf v)
  | .arcsine => .ok (ops.asinf v)
  | .arccosine => .ok (ops.acosf v)
  | .arctangent => .ok (ops.atanf v)
  | .hyperbolicSine => .ok (ops.sinhf v)
  | .hyperbolicCosine => .ok (ops.coshf v)
  | .hyperbolicTangent => .ok (ops.tanhf v)
  | .hyperbolicArcsine => .ok (ops.asinhf v)
  | .hyperbolicArccosine => .ok (ops.acoshf v)
  | .hyperbolicArctangent => .ok (ops.atanhf v)
  | _ => .error .wrongTokenType

/-- The leaf token classes (`Numeric` subclasses), whose `Evaluate`
bodies never consult child nodes. -/
def isLeafKind : TokenKind → Bool
  | .number | .pythagorean | .exponentConst | .varTok => true
  | _ => false

/-- The child-count checks performed before any child is evaluated:
`Add::Evaluate` and `Sub::Evaluate` check the node's child count up
front, and `EvaluateChildren` with a non-zero expected count
(2 for `Pow` and `Logarithm`, 1 for `Bracket`, `ModBracket` and the
unary functions) throws before the child loop runs.  The two recorded
sizes follow the argument order of each throw site (`EvaluateChildren`
passes the expected count first). -/
def evalPre (k : TokenKind) (n : Nat) : Except EvalError Unit :=
  match k with
  | .add => if n < 2 then .error (.count n 2) else .ok ()
  | .sub => if n = 0 then .error (.count 0 1) else .ok ()
  | .pow => if n ≠ 2 then .error (.count 2 n) else .ok ()
  | .logarithm => if n ≠ 2 then .error (.count 2 n) else .ok ()
  | .bracket _ => if n ≠ 1 then .error (.count 1 n) else .ok ()
  | .modBracket => if n ≠ 1 then .error (.count 1 n) else .ok ()
  | .mul | .div | .number | .pythagorean | .exponentConst | .varTok
  | .paramSeparator => .ok ()
  | _ => if n ≠ 1 then .error (.count 1 n) else .ok ()

/-- The numeric rule of each token class applied to the already evaluated
child values, following each `Evaluate` body: `Number` parses its span,
constants return their value, `Variable` looks its span up in the
environment (`UnresolvedSymbol` when absent), `Add` sums, `Sub` negates a
single value and otherwise subtracts the rest from the first, `Mul` and
`Div` check the value count after evaluation (as the sources do) and fold
multiplication respectively checked division, `Pow` raises
`NegativeNumberRoot` exactly when the exponent is below 1 and the base
negative, `Bracket` passes its value through, `ModBracket` takes the
absolute value, `Logarithm` divides the two logarithms, and the unary
functions apply their primitive. -/
def applyToken (ops : Ops) (env : Env) (tk : Token) (vs : List ℚ) : Except EvalError ℚ :=
  match tk.kind with
  | .number => .ok (parseNumber tk.source)
  | .pythagorean => .ok ops.piConst
  | .exponentConst => .ok ops.eulerConst
  | .varTok =>
    match env.lookup tk.source with
    | some v => .ok v
    | none => .error (.unresolvedSymbol tk.source)
  | .add => .ok (vs.foldl (· + ·) 0)
  | .sub =>
    match vs with
    | [v] => .ok (-v)
    | v :: rest => .ok (rest.foldl (· - ·) v)
    | [] => .error (.count 0 1)
  | .mul =>
    if vs.length < 2 then .error (.count vs.length 2)
    else .ok (vs.foldl (· * ·) 1)
  | .div =>
    match vs with
    | [] => .error (.count 0 2)
    | [_] => .error (.count 1 2)
    | v :: rest => divFold v rest
  | .pow =>
    match vs with
    | [b, p] =>
      if p < 1 ∧ b < 0 then .error .negativeNumberRoot
      else .ok (ops.powf b p)
    | _ => .error .wrongTokenType
  | .bracket _ =>
    match vs with
    | [v] => .ok v
    | _ => .error .wrongTokenType
  | .modBracket =>
    match vs with
    | [v] => .ok |v|
    | _ => .error .wrongTokenType
  | .logarithm =>
    match vs with
    | [a, b] => .ok (ops.ln a / ops.ln b)
    | _ => .error .wrongTokenType
  | .paramSeparator => .error .wrongTokenType
  | k =>
    match vs with
    | [v] => unaryApply k ops v
    | _ => .error .wrongTokenType

/-- The evaluation of a work list of nodes — the loop of
`Token::EvaluateChildren`: each node must be a `MathExpressions::Token`
(a `ParamSeparator` raises `WrongTokenType`), its up-front child-count
check runs, its children are evaluated recursively (leaf classes never
recurse) and its own numeric rule is applied; nodes are processed left to
right. -/
def evalAll (ops : Ops) (env : Env) : Nat → List AST → Except EvalError (List ℚ)
  | _, [] => .ok []
  | 0, _ :: _ => .error .fuelExhausted
  | fuel + 1, .node tk cs :: rest =>
    if tk.kind = .paramSeparator then .error .wrongTokenType
    else
      match evalPre tk.kind cs.length with
      | .error e => .error e
      | .ok _ =>
        match
          (if isLeafKind tk.kind then applyToken ops env tk []
           else
             match evalAll ops env fuel cs with
             | .error e => .error e
             | .ok vs => applyToken ops env tk vs)
        with
        | .error e => .error e
        | .ok v =>
          match evalAll ops env fuel rest with
          | .error e => .error e
          | .ok vs2 => .ok (v :: vs2)

/-- `Token::Evaluate` of a single node. -/
def evalNode (ops : Ops) (env : Env) (fuel : Nat) (a : AST) : Except EvalError ℚ :=
  match evalAll ops env fuel [a] with
  | .error e => .error e
  | .ok (v :: _) => .ok v
  | .ok [] => .error .wrongTokenType

/-! ## Tokenizer

The token factories below are embedded from the `MET_*Factory` functions of
`MathExpressions.cpp` (including the cursor behavior of `TokenFromString`,
which leaves the cursor advanced past a partially matched prefix when it
fails — visible across the alias list of `TokenFromEitherStrings`).
The engine loop that applies them, `Parser::Engine::Tokenize`, is not part
of this repository's sources; it is modelled from the specification at
`tokenizeLoop` below.
-/

/-- Reading `std::string::operator[]`: one past the end yields the null
character. -/
def charAt (l : List Char) (i : Nat) : Char :=
  l.getD i (Char.ofNat 0)

/-- `std::isblank` (space or horizontal tab). -/
def isBlankChar (c : Char) : Bool :=
  c == ' ' || c == '\t'

/-- `std::isalpha` on ASCII input. -/
def isAlphaChar (c : Char) : Bool :=
  ('a' ≤ c && c ≤ 'z') || ('A' ≤ c && c ≤ 'Z')

/-- A token factory: given the expression characters and a cursor, either
recognizes one token (returning it with the advanced cursor) or yields
nothing.  `MET_NumberFactory` can raise `IncorrectlyFormedNumber`, hence
the `Except`. -/
abbrev Factory := List Char → Nat → Except EvalError (Option (Token × Nat))

/-- The do-while loop of `MET_NumberFactory`: consumes digits and at most
one decimal point, raising `IncorrectlyFormedNumber` at a second point.
Returns the cursor right after the loop (before the final decrement).
The `Nat` fuel argument exceeds the remaining input length. -/
def numberScan (l : List Char) : Nat → Nat → Bool → Except EvalError Nat
  | 0, _, _ => .error .fuelExhausted
  | fuel + 1, cursor, numDec =>
    let ch := charAt l cursor
    if ch == '.' && numDec then .error (.incorrectlyFormedNumber cursor)
    else
      let nd := numDec || ch == '.'
      let c2 := cursor + 1
      if (ch.isDigit || ch == '.') && c2 ≤ l.length then numberScan l fuel c2 nd
      else .ok c2

/-- `MET_NumberFactory`. -/
def numberFactory : Factory := fun l cursor =>
  match numberScan l (l.length + 2) cursor false with
  | .error e => .error e
  | .ok c2 =>
    let fin := c2 - 1
    if fin = cursor then .ok none
    else .ok (some (⟨.number, String.mk ((l.drop cursor).take (fin - cursor))⟩, fin))

/-- `TokenFromCharacter<T>`: single-character match. -/
def tokenFromChar (k : TokenKind) (ch : Char) : Factory := fun l cursor =>
  if charAt l cursor == ch then .ok (some (⟨k, String.mk [ch]⟩, cursor + 1))
  else .ok none

/-- `MET_BracketFactory`: `(` yields an opening bracket
(`Variant = false`), `)` a closing one (`Variant = true`). -/
def bracketFactory : Factory := fun l cursor =>
  if charAt l cursor == '(' then .ok (some (⟨.bracket false, "("⟩, cursor + 1))
  else if charAt l cursor == ')' then .ok (some (⟨.bracket true, ")"⟩, cursor + 1))
  else .ok none

/-- The character loop of `TokenFromString`: on success returns the cursor
past the match; on a mismatch it stops, leaving the cursor advanced past
the matched prefix (the source does not restore it). -/
def matchChars (l : List Char) : Nat → List Char → Option Nat × Nat
  | cursor, [] => (some cursor, cursor)
  | cursor, ch :: rest =>
    if charAt l cursor == ch then matchChars l (cursor + 1) rest
    else (none, cursor)

/-- `TokenFromString<T>`: matches a fixed spelling; bails out without
moving the cursor only when the remaining input is shorter than the
spelling. -/
def tokenFromString (k : TokenKind) (target : String) (l : List Char) (cursor : Nat) :
    Option Token × Nat :=
  if l.length < cursor + target.length then (none, cursor)
  else
    match matchChars l cursor target.toList with
    | (some c2, _) => (some ⟨k, target⟩, c2)
    | (none, c2) => (none, c2)

/-- `TokenFromEitherStrings<T>`: tries each alias in order, threading the
single shared cursor through the tries, so a partially matched earlier
alias leaves the cursor advanced for the later ones (as in the source). -/
def tokenFromEitherStrings (k : TokenKind) (l : List Char) :
    Nat → List String → Option Token × Nat
  | cursor, [] => (none, cursor)
  | cursor, t :: ts =>
    match tokenFromString k t l cursor with
    | (some tok, c2) => (some tok, c2)
    | (none, c2) => tokenFromEitherStrings k l c2 ts

/-- Factory wrapper around `TokenFromString`. -/
def strFactory (k : TokenKind) (target : String) : Factory := fun l cursor =>
  match tokenFromString k target l cursor with
  | (some tok, c2) => .ok (some (tok, c2))
  | (none, _) => .ok none

/-- Factory wrapper around `TokenFromEitherStrings`. -/
def aliasFactory (k : TokenKind) (aliases : List String) : Factory := fun l cursor =>
  match tokenFromEitherStrings k l cursor aliases with
  | (some tok, c2) => .ok (some (tok, c2))
  | (none, _) => .ok none

/-- The scan loop of `MET_VariableFactory`: consumes alphabetic
characters. -/
def variableScan (l : List Char) : Nat → Nat → Nat
  | 0, cursor => cursor
  | fuel + 1, cursor =>
    if cursor < l.length && isAlphaChar (charAt l cursor) then variableScan l fuel (cursor + 1)
    else cursor

/-- `MET_VariableFactory`. -/
def variableFactory : Factory := fun l cursor =>
  let e2 := variableScan l (l.length + 1) cursor
  if e2 = cursor then .ok none
  else .ok (some (⟨.varTok, String.mk ((l.drop cursor).take (e2 - cursor))⟩, e2))

/-- `MET_SeparatorFactory`: `,` or `;`. -/
def separatorFactory : Factory := fun l cursor =>
  match tokenFromChar .paramSeparator ',' l cursor with
  | .ok (some r) => .ok (some r)
  | _ => tokenFromChar .paramSeparator ';' l cursor

/-- `MET_HyperbolicArctangentFactory`: recognizes the hyperbolic
arctangent spellings but constructs a `MathExpressions::HyperbolicTangent`
token, exactly as the source does
(`TokenFromEitherStrings<MathExpressions::HyperbolicTangent>`). -/
def hyperbolicArctangentFactory : Factory :=
  aliasFactory .hyperbolicTangent ["atgh(", "atanh(", "arctgh(", "arctanh("]

/-- The ordered factory list of `MathExpressions::GetTokenFactories`
(without `MET_WhitespaceFactory`, whose cursor-skipping behavior is part
of the engine step below). -/
def factoryList : List Factory :=
  [bracketFactory, tokenFromChar .modBracket '|',
   tokenFromChar .add '+', tokenFromChar .sub '-',
   tokenFromChar .mul '*', tokenFromChar .div '/',
   tokenFromChar .pow '^',
   strFactory .logarithmE "ln(", strFactory .logarithm2 "log2(",
   strFactory .logarithm10 "log10(", strFactory .logarithm "log(",
   strFactory .exponentFunc "exp(",
   strFactory .squareRoot "sqrt(", strFactory .sign "sign(",
   strFactory .sine "sin(", strFactory .cosine "cos(",
   aliasFactory .tangent ["tg(", "tan("],
   aliasFactory .cotangent ["ctg(", "ctan("],
   aliasFactory .arcsine ["asin(", "arcsin("],
   aliasFactory .arccosine ["acos(", "arccos("],
   aliasFactory .arctangent ["atg(", "atan(", "arctg(", "arctan("],
   strFactory .hyperbolicSine "sinh(", strFactory .hyperbolicCosine "cosh(",
   aliasFactory .hyperbolicTangent ["tgh(", "tanh("],
   aliasFactory .hyperbolicArcsine ["asinh(", "arcsinh("],
   aliasFactory .hyperbolicArccosine ["acosh(", "arccosh("],
   hyperbolicArctangentFactory,
   separatorFactory,
   numberFactory, strFactory .pythagorean "pi",
   tokenFromChar .exponentConst 'e', variableFactory]

/-- Modelled from the spec: one step of `Parser::Engine::Tokenize` tries
the ordered recognizer list at the current cursor and takes the first one
that yields a token; a recognizer that yields nothing has no effect on the
cursor ("the first recognizer that matches consumes one or more
characters"). -/
def tryFactories (l : List Char) (cursor : Nat) : List Factory → Except EvalError (Option (Token × Nat))
  | [] => .ok none
  | f :: fs =>
    match f l cursor with
    | .error e => .error e
    | .ok (some r) => .ok (some r)
    | .ok none => tryFactories l cursor fs

/-- Modelled from the spec: the `Parser::Engine::Tokenize` loop, which is
not part of this repository's sources.  Whitespace is insignificant and
skipped (the behavior of `MET_WhitespaceFactory`, first in the factory
list); otherwise the first matching recognizer appends its token; if no
recognizer matches at a non-exhausted cursor the tokenizer fails. -/
def tokenizeLoop (l : List Char) : Nat → Nat → List Token → Except EvalError (List Token)
  | 0, _, _ => .error .fuelExhausted
  | fuel + 1, cursor, acc =>
    if l.length ≤ cursor then .ok acc
    else if isBlankChar (charAt l cursor) then tokenizeLoop l fuel (cursor + 1) acc
    else
      match tryFactories l cursor factoryList with
      | .error e => .error e
      | .ok (some (tok, c2)) => tokenizeLoop l fuel c2 (acc ++ [tok])
      | .ok none => .error (.unrecognizedCharacter cursor)

/-- Tokenization of a whole expression string. -/
def tokenizeME (s : String) : Except EvalError (List Token) :=
  tokenizeLoop s.toList (s.length + 1) 0 []

/-! ## Pair matching, backpatch and the partition engine

`FindMatchingToken` (of `DistinctPair` and `IndistinctPair`),
`Pair::FindNextToken`, `Pair::SplitPoints`,
`ArgumentedFunction::SplitPoints`, `ParamSeparator::SplitPoints` and
`Pair::Backpatch` are embedded from the sources; positions are absolute
indices into the token list, matching the iterators of the source.  The
engine loop that drives them, `Parser::Engine::Parse`, is not part of this
repository's sources and is modelled from the specification. -/

/-- Kind of the token at an absolute position (the dangling-iterator
default is never consulted at in-range positions). -/
def kindAt (tokens : List Token) (p : Nat) : TokenKind :=
  (tokens.getD p ⟨.paramSeparator, ""⟩).kind

/-- `Variant` of a `DistinctPair` token (functions are constructed with
`Variant = false`). -/
def variantOf : TokenKind → Bool
  | .bracket c => c
  | _ => false

/-- `IsMatchingToken` restricted to `DistinctPair` candidates:
`Bracket::IsMatchingToken` accepts brackets, `Function::IsMatchingToken`
accepts brackets; nothing else matches. -/
def matchesDistinct (self other : TokenKind) : Bool :=
  match other with
  | .bracket _ =>
    (match self with | .bracket _ => true | _ => false) || isFunctionKind self
  | _ => false

/-- A pair cache: resolved partner positions, as stored by
`Pair::Backpatch` into `PairCache`. -/
abbrev PairCacheL := List (Nat × Nat)

/-- The state of one step of the pair-matching machinery: advancing past
a token (`FindNextToken`), resolving a token's partner
(`FindMatchingToken`), or one of the two scan loops. -/
inductive ScanMode where
  | next (p : Nat)
  | findMatch (p : Nat)
  | scanD (self : TokenKind) (pos : Nat)
  | scanI (pos : Nat)

/-- The pair-matching machinery, embedded from the sources:
`ScanMode.next` is `FindNextToken` (pair tokens jump one past their
matching partner, every other token advances by one);
`ScanMode.findMatch` is `FindMatchingToken`
(`DistinctPair::FindMatchingToken` consults the pair cache first and
otherwise scans, `IndistinctPair::FindMatchingToken` always scans);
`ScanMode.scanD` is the scan loop of `DistinctPair::FindMatchingToken`
(advance with each intervening token's `FindNextToken`; a matching
`DistinctPair` with `Variant = true` is the partner, one with
`Variant = false` is skipped like any other token); `ScanMode.scanI` is
the scan loop of `IndistinctPair::FindMatchingToken` (the first further
modulus bracket is the partner). -/
def scanTok (cache : PairCacheL) (tokens : List Token) (hi : Nat) :
    Nat → ScanMode → Except EvalError Nat
  | 0, _ => .error .fuelExhausted
  | fuel + 1, mode =>
    match mode with
    | .next p =>
      if isPairKind (kindAt tokens p) then
        match scanTok cache tokens hi fuel (.findMatch p) with
        | .error e => .error e
        | .ok m => .ok (m + 1)
      else .ok (p + 1)
    | .findMatch p =>
      let k := kindAt tokens p
      if isDistinctPairKind k then
        match cache.lookup p with
        | some q => .ok q
        | none => scanTok cache tokens hi fuel (.scanD k (p + 1))
      else scanTok cache tokens hi fuel (.scanI (p + 1))
    | .scanD self pos =>
      if hi ≤ pos then .error .noMatchingToken
      else
        let k := kindAt tokens pos
        if isDistinctPairKind k && matchesDistinct self k && variantOf k then .ok pos
        else
          match scanTok cache tokens hi fuel (.next pos) with
          | .error e => .error e
          | .ok p2 => scanTok cache tokens hi fuel (.scanD self p2)
    | .scanI pos =>
      if hi ≤ pos then .error .noMatchingToken
      else
        if kindAt tokens pos = .modBracket then .ok pos
        else
          match scanTok cache tokens hi fuel (.next pos) with
          | .error e => .error e
          | .ok p2 => scanTok cache tokens hi fuel (.scanI p2)

/-- `FindNextToken` at a position. -/
def findNextTok (cache : PairCacheL) (tokens : List Token) (hi fuel p : Nat) :
    Except EvalError Nat :=
  scanTok cache tokens hi fuel (.next p)

/-- `FindMatchingToken` of the token at a position. -/
def findMatchTok (cache : PairCacheL) (tokens : List Token) (hi fuel p : Nat) :
    Except EvalError Nat :=
  scanTok cache tokens hi fuel (.findMatch p)

/-- Modelled from the spec: the backpatch pass ("invoked once per produced
token sequence, before any partitioning"); it walks the sequence with
`FindNextToken` and calls `Pair::Backpatch` on every pair token it
encounters, recording the scan result in the cache, and fails with
`NoMatchingToken` where the scan does. -/
def backpatchLoop (tokens : List Token) :
    Nat → Nat → PairCacheL → Except EvalError PairCacheL
  | 0, _, _ => .error .fuelExhausted
  | fuel + 1, pos, acc =>
    if tokens.length ≤ pos then .ok acc
    else
      match
        (if isPairKind (kindAt tokens pos) then
          match findMatchTok [] tokens tokens.length fuel pos with
          | .error e => .error e
          | .ok m => .ok (acc ++ [(pos, m)])
        else .ok acc : Except EvalError PairCacheL)
      with
      | .error e => .error e
      | .ok acc2 =>
        match findNextTok [] tokens tokens.length fuel pos with
        | .error e => .error e
        | .ok p2 => backpatchLoop tokens fuel p2 acc2

/-- Engine fuel bound: far more steps than any scan or recursion over the
token sequence can take. -/
def pipeFuel (tokens : List Token) : Nat :=
  (tokens.length + 2) ^ 3

/-- The whole backpatch pass. -/
def backpatchME (tokens : List Token) : Except EvalError PairCacheL :=
  backpatchLoop tokens (pipeFuel tokens) 0 []

/-- Modelled from the spec: the effective root priority used by the
partition engine's linear precedence selection.  Lower values become the
root; ties go to the leftmost token.  The values order the source
priorities (`Add`/`Sub` 1 < `Mul`/`Div` 2 < `Pow` 3 < `Function` 4 <
numerics and pairs), a `ParamSeparator` reaching root selection is the
structural error case, and a `Sub` with nothing evaluable to its left
(start of the slice or right after another operator) is the documented
unary-negation case and binds tighter than any binary operator. -/
def rootPriority (tokens : List Token) (lo p : Nat) : Nat :=
  match kindAt tokens p with
  | .paramSeparator => 0
  | .add => 10
  | .sub =>
    if p = lo ||
        (match kindAt tokens (p - 1) with
         | .add | .sub | .mul | .div | .pow => true
         | _ => false) then 35
    else 10
  | .mul | .div => 20
  | .pow => 30
  | k => if isFunctionKind k then 40 else 1000000

/-- Modelled from the spec: the linear single-pass precedence selection of
the partition engine; scans the slice with `FindNextToken` keeping the
leftmost token of least effective root priority. -/
def rootScan (cache : PairCacheL) (tokens : List Token) (lo hi : Nat) :
    Nat → Nat → Nat → Except EvalError Nat
  | 0, _, _ => .error .fuelExhausted
  | fuel + 1, pos, cand =>
    if hi ≤ pos then .ok cand
    else
      let cand2 := if rootPriority tokens lo pos < rootPriority tokens lo cand then pos else cand
      match findNextTok cache tokens hi fuel pos with
      | .error e => .error e
      | .ok p2 => rootScan cache tokens lo hi fuel p2 cand2

/-- The separator-collection loop of `ArgumentedFunction::SplitPoints`:
walks the enclosed range with `FindNextToken` and records every
`ParamSeparator` position. -/
def collectSeps (cache : PairCacheL) (tokens : List Token) (hi : Nat) :
    Nat → Nat → List Nat → Except EvalError (List Nat)
  | 0, _, _ => .error .fuelExhausted
  | fuel + 1, pos, acc =>
    if hi ≤ pos then .ok acc
    else
      let acc2 := if kindAt tokens pos = .paramSeparator then acc ++ [pos] else acc
      match findNextTok cache tokens hi fuel pos with
      | .error e => .error e
      | .ok p2 => collectSeps cache tokens hi fuel p2 acc2

/-- The slice segments between the enclosing range bounds and the found
separators (`ArgumentedFunction::SplitPoints`). -/
def segmentSlices (start stop : Nat) : List Nat → List (Nat × Nat)
  | [] => [(start, stop)]
  | s :: rest => (start, s) :: segmentSlices (s + 1) stop rest

/-- `SplitPoints` of the selected root token over the slice `[lo, hi)`:
`Numeric::SplitPoints` yields no children, `BinaryOp::SplitPoints` the two
sides of the operator, `Pair::SplitPoints` the enclosed range,
`ArgumentedFunction::SplitPoints` one segment per separator, and
`ParamSeparator::SplitPoints` always raises `UnexpectedSeparator`. -/
def splitPointsME (cache : PairCacheL) (tokens : List Token)
    (fuel lo hi root : Nat) : Except EvalError (List (Nat × Nat)) :=
  match kindAt tokens root with
  | .paramSeparator => .error .unexpectedSeparator
  | .number | .pythagorean | .exponentConst | .varTok => .ok []
  | .add | .sub | .mul | .div | .pow =>
    if lo = hi then .ok [] else .ok [(lo, root), (root + 1, hi)]
  | .logarithm =>
    match findMatchTok cache tokens hi fuel root with
    | .error e => .error e
    | .ok m =>
      match collectSeps cache tokens m fuel (root + 1) [] with
      | .error e => .error e
      | .ok seps =>
        if seps = [] then .ok [(root + 1, m)]
        else .ok (segmentSlices (root + 1) m seps)
  | _ =>
    match findMatchTok cache tokens hi fuel root with
    | .error e => .error e
    | .ok m => .ok [(root + 1, m)]

/-- Modelled from the spec: `Parser::Engine::Parse` over a work list of
slices `[lo, hi)` — a single token becomes a leaf, otherwise the root is
selected by the linear precedence scan, the root's `SplitPoints`
partitions the slice, empty sub-slices are dropped (the documented
unary-subtraction case) and the remaining sub-slices are parsed
recursively. -/
def parseSlices (cache : PairCacheL) (tokens : List Token) :
    Nat → List (Nat × Nat) → Except EvalError (List AST)
  | 0, _ => .error .fuelExhausted
  | _ + 1, [] => .ok []
  | fuel + 1, (lo, hi) :: rest =>
    if hi ≤ lo then .error .emptyExpression
    else if hi = lo + 1 then
      match parseSlices cache tokens fuel rest with
      | .error e => .error e
      | .ok as2 => .ok (.node (tokens.getD lo ⟨.paramSeparator, ""⟩) [] :: as2)
    else
      match rootScan cache tokens lo hi fuel lo lo with
      | .error e => .error e
      | .ok root =>
        match splitPointsME cache tokens fuel lo hi root with
        | .error e => .error e
        | .ok slices =>
          match parseSlices cache tokens fuel (slices.filter (fun ab => ab.1 < ab.2)) with
          | .error e => .error e
          | .ok kids =>
            match parseSlices cache tokens fuel rest with
            | .error e => .error e
            | .ok as2 => .ok (.node (tokens.getD root ⟨.paramSeparator, ""⟩) kids :: as2)

/-- Parsing one slice. -/
def parseME (cache : PairCacheL) (tokens : List Token) (fuel lo hi : Nat) :
    Except EvalError AST :=
  match parseSlices cache tokens fuel [(lo, hi)] with
  | .error e => .error e
  | .ok (a :: _) => .ok a
  | .ok [] => .error .emptyExpression

/-- Parsing the whole token sequence. -/
def parseTopME (cache : PairCacheL) (tokens : List Token) : Except EvalError AST :=
  parseME cache tokens (pipeFuel tokens) 0 tokens.length

/-- The root dispatch of `MathExpressions::Evaluate`: the AST root must be
a `MathExpressions::Token` (a `ParamSeparator` is not). -/
def evalRootME (ops : Ops) (env : Env) (tokens : List Token) (a : AST) : Except EvalError ℚ :=
  match a with
  | .node tk _ =>
    if tk.kind = .paramSeparator then .error .rootNotMathToken
    else evalNode ops env (pipeFuel tokens) a

/-- `MathExpressions::Evaluate`: rejects the empty expression, tokenizes,
backpatches, parses and evaluates against the environment. -/
def EvaluateME (ops : Ops) (expr : String) (env : Env) : Except EvalError ℚ :=
  if expr.toList = [] then .error .emptyExpression
  else
    match tokenizeME expr with
    | .error e => .error e
    | .ok tokens =>
      match backpatchME tokens with
      | .error e => .error e
      | .ok cache =>
        match parseTopME cache tokens with
        | .error e => .error e
        | .ok ast => evalRootME ops env tokens ast

/-! ## Stringifier

`SourcedToken::Stringify`, `BinaryOp::Stringify`, `Sub::Stringify`,
`Pair::Stringify`, `Bracket::Stringify`, `ModBracket::Stringify`,
`Function::Stringify` and `ArgumentedFunction::Stringify` over an AST,
embedded from the sources.  Note that `ArgumentedFunction::Stringify`
emits the function name and the comma-separated arguments but no closing
bracket. -/

/-- The child-count checks each `Stringify` override performs before
emitting text: `BinaryOp::Stringify` requires exactly 2 children,
`Sub::Stringify` between 1 and 2. -/
def stringifyArity (k : TokenKind) (n : Nat) : Except EvalError Unit :=
  match k with
  | .add | .mul | .div | .pow =>
    if n ≠ 2 then .error (.count n 2) else .ok ()
  | .sub =>
    if n = 0 then .error (.count 0 1)
    else if 2 < n then .error (.count n 2)
    else .ok ()
  | _ => .ok ()

/-- Combines a token's source span with its children's already produced
text, per `Stringify` override: leaves print their span; binary operators
print left, span, right (`Sub` with one child prints span then child);
brackets, modulus brackets and plain functions print the span, the
children and a synthesized closing character (`Bracket::Stringify`,
`ModBracket::Stringify`, `Function::Stringify`); an argumented function
(`ArgumentedFunction::Stringify`) prints the span, the first argument and
`, `-prefixed further arguments — and no closing bracket. -/
def stringifyCombine (tk : Token) (css : List String) : Except EvalError String :=
  match tk.kind with
  | .number | .pythagorean | .exponentConst | .varTok | .paramSeparator =>
    .ok tk.source
  | .add | .mul | .div | .pow =>
    match css with
    | [sl, sr] => .ok (sl ++ tk.source ++ sr)
    | _ => .error .wrongTokenType
  | .sub =>
    match css with
    | [sx] => .ok (tk.source ++ sx)
    | [sl, sr] => .ok (sl ++ tk.source ++ sr)
    | _ => .error .wrongTokenType
  | .bracket _ => .ok (tk.source ++ String.join css ++ ")")
  | .modBracket => .ok (tk.source ++ String.join css ++ "|")
  | .logarithm =>
    match css with
    | [] => .ok tk.source
    | s0 :: rest => .ok (tk.source ++ s0 ++ String.join (rest.map (", " ++ ·)))
  | _ => .ok (tk.source ++ String.join css ++ ")")

/-- Tree stringification over a work list of nodes: for each node the
child-count check runs first, then the children are stringified and
combined with the node's span. -/
def stringifyAll : Nat → List AST → Except EvalError (List String)
  | 0, _ => .error .fuelExhausted
  | _ + 1, [] => .ok []
  | fuel + 1, .node tk cs :: rest =>
    match stringifyArity tk.kind cs.length with
    | .error e => .error e
    | .ok _ =>
      match stringifyAll fuel cs with
      | .error e => .error e
      | .ok css =>
        match stringifyCombine tk css with
        | .error e => .error e
        | .ok s =>
          match stringifyAll fuel rest with
          | .error e => .error e
          | .ok ss => .ok (s :: ss)

/-- Stringification of a single tree. -/
def stringifyNode (fuel : Nat) (a : AST) : Except EvalError String :=
  match stringifyAll fuel [a] with
  | .error e => .error e
  | .ok (s :: _) => .ok s
  | .ok [] => .error .wrongTokenType

/-- Tokenizes, backpatches and parses an expression, then stringifies the
resulting tree (the round-trip front half). -/
def StringifyParsed (expr : String) : Except EvalError String :=
  match tokenizeME expr with
  | .error e => .error e
  | .ok tokens =>
    match backpatchME tokens with
    | .error e => .error e
    | .ok cache =>
      match parseTopME cache tokens with
      | .error e => .error e
      | .ok ast => stringifyNode (pipeFuel tokens) ast

/-! ## Per-call pair-cache state

`PairCache` is a member of each `Pair` token instance, keyed by the
address of the token vector; every `Evaluate` call constructs fresh token
instances, so a call can only ever observe cache entries written by its
own backpatch pass.  `EvaluateSession` makes that state explicit: a world
of cache entries keyed by `(instance, position)` survives across calls,
each call tags its own entries with its instance identifier, and lookups
only see entries of the same instance. -/

/-- Cross-call cache state: entries keyed by instance and position. -/
abbrev World := List ((Nat × Nat) × Nat)

/-- Tags a call's backpatch entries with its instance identifier. -/
def tagEntries (inst : Nat) (es : PairCacheL) : World :=
  es.map (fun pq => ((inst, pq.1), pq.2))

/-- The cache entries an instance can see in a world. -/
def instEntries (inst : Nat) : World → PairCacheL
  | [] => []
  | e :: rest =>
    if e.1.1 = inst then (e.1.2, e.2) :: instEntries inst rest
    else instEntries inst rest

/-- `MathExpressions::Evaluate` with the pair-cache state made explicit:
the backpatch entries are appended to the world under this call's
instance identifier, and parsing consults exactly the entries visible to
this instance. -/
def EvaluateSession (ops : Ops) (inst : Nat) (world : World) (expr : String) (env : Env) :
    Except EvalError ℚ × World :=
  if expr.toList = [] then (.error .emptyExpression, world)
  else
    match tokenizeME expr with
    | .error e => (.error e, world)
    | .ok tokens =>
      match backpatchME tokens with
      | .error e => (.error e, world)
      | .ok entries =>
        let world2 := world ++ tagEntries inst entries
        (match parseTopME (instEntries inst world2) tokens with
         | .error e => .error e
         | .ok ast => evalRootME ops env tokens ast, world2)

/-- A fixed interpretation of the numeric primitives, used to instantiate
witnesses at concrete inputs; the hyperbolic tangent and arctangent
fields differ everywhere so the two primitives are distinguishable. -/
def dummyOps : Ops :=
  { piConst := 0, eulerConst := 0, powf := fun b p => b + p, ln := fun v => v + 1,
    log2f := fun _ => 0, log10f := fun _ => 0, expf := fun _ => 0,
    sqrtf := fun _ => 0, sinf := fun _ => 0, cosf := fun _ => 0,
    tanf := fun _ => 0, asinf := fun _ => 0, acosf := fun _ => 0,
    atanf := fun _ => 0, sinhf := fun _ => 0, coshf := fun _ => 0,
    tanhf := fun v => v + 50, asinhf := fun _ => 0, acoshf := fun _ => 0,
    atanhf := fun v => v + 60 }

/-! ## Supporting lemmas -/

/-- `EvaluateChildren` produces exactly one value per node of its work
list when it succeeds. -/
theorem evalAll_length (ops : Ops) (env : Env) :
    ∀ (fuel : Nat) (cs : List AST) (vs : List ℚ),
      evalAll ops env fuel cs = .ok vs → vs.length = cs.length := by
  intro fuel
  induction fuel with
  | zero =>
    intro cs vs h
    cases cs with
    | nil =>
      simp only [evalAll] at h
      cases h
      rfl
    | cons c rest => simp [evalAll] at h
  | succ n ih =>
    intro cs vs h
    cases cs with
    | nil =>
      simp only [evalAll] at h
      cases h
      rfl
    | cons c rest =>
      rcases c with ⟨tk, kids⟩
      unfold evalAll at h
      split at h
      · exact absurd h (by simp)
      · split at h
        · exact absurd h (by simp)
        · split at h
          · exact absurd h (by simp)
          · split at h
            · exact absurd h (by simp)
            · rename_i vs2 hrest
              cases h
              simp [ih rest vs2 hrest]

/-- The division loop errors exactly when a zero divisor occurs, and
otherwise folds the divisions from the left. -/
theorem divFold_eq (v0 : ℚ) (rest : List ℚ) :
    divFold v0 rest =
      if 0 ∈ rest then .error .divisionByZero
      else .ok (rest.foldl (· / ·) v0) := by
  induction rest generalizing v0 with
  | nil => simp [divFold]
  | cons a as ih =>
    by_cases ha : a = 0
    · subst ha
      simp [divFold]
    · have hne : ¬ (0 : ℚ) = a := fun hh => ha hh.symm
      by_cases h2 : (0 : ℚ) ∈ as
      · simp [divFold, ha, ih, h2, hne]
      · simp [divFold, ha, ih, h2, hne]

/-- `instEntries` distributes over world concatenation. -/
theorem instEntries_append (i : Nat) (w1 w2 : World) :
    instEntries i (w1 ++ w2) = instEntries i w1 ++ instEntries i w2 := by
  induction w1 with
  | nil => rfl
  | cons e rest ih =>
    by_cases hj : e.1.1 = i
    · simp [instEntries, hj, ih]
    · simp [instEntries, hj, ih]

/-- A world with no entries of an instance contributes nothing to that
instance's visible cache. -/
theorem instEntries_of_not_mem (i : Nat) (w : World)
    (h : ∀ p q, ((i, p), q) ∉ w) : instEntries i w = [] := by
  induction w with
  | nil => rfl
  | cons e rest ih =>
    rcases e with ⟨⟨j, p⟩, q⟩
    have hrest : ∀ p2 q2, ((i, p2), q2) ∉ rest := fun p2 q2 hm =>
      h p2 q2 (List.mem_cons_of_mem _ hm)
    by_cases hj : j = i
    · subst hj
      exact absurd (List.mem_cons_self _ _) (h p q)
    · simp [instEntries, hj, ih hrest]

/-- An instance sees exactly its own tagged entries. -/
theorem instEntries_tag (i : Nat) (es : PairCacheL) :
    instEntries i (tagEntries i es) = es := by
  induction es with
  | nil => rfl
  | cons e rest ih =>
    simp [instEntries, tagEntries] at ih ⊢
    exact ih

/-- Keys appearing in the world after a session call either were already
there or carry the call's own instance identifier. -/
theorem session_world_keys (ops : Ops) (i : Nat) (w : World) (expr : String) (env : Env) :
    ∀ j p q, ((j, p), q) ∈ (EvaluateSession ops i w expr env).2 →
      ((j, p), q) ∈ w ∨ j = i := by
  intro j p q
  by_cases hemp : expr.data = []
  · simp only [EvaluateSession, String.toList, hemp, if_true]
    exact fun hm => Or.inl hm
  · cases htok : tokenizeME expr with
    | error e =>
      simp only [EvaluateSession, String.toList, hemp, if_false, htok]
      exact fun hm => Or.inl hm
    | ok tokens =>
      cases hbp : backpatchME tokens with
      | error e =>
        simp only [EvaluateSession, String.toList, hemp, if_false, htok, hbp]
        exact fun hm => Or.inl hm
      | ok entries =>
        simp only [EvaluateSession, String.toList, hemp, if_false, htok, hbp]
        intro hm
        rcases List.mem_append.mp hm with hm2 | hm2
        · exact Or.inl hm2
        · right
          simp only [tagEntries, List.mem_map] at hm2
          rcases hm2 with ⟨x, _, hx⟩
          exact (congrArg (fun t => t.1.1) hx).symm

/-- A session whose instance has no prior entries in the world computes
exactly `EvaluateME`. -/
theorem evaluateSession_fresh (ops : Ops) (i : Nat) (w : World) (expr : String) (env : Env)
    (h : ∀ p q, ((i, p), q) ∉ w) :
    (EvaluateSession ops i w expr env).1 = EvaluateME ops expr env := by
  by_cases hemp : expr.data = []
  · simp only [EvaluateSession, EvaluateME, String.toList, hemp, if_true]
  · cases htok : tokenizeME expr with
    | error e =>
      simp only [EvaluateSession, EvaluateME, String.toList, hemp, if_false, htok]
    | ok tokens =>
      cases hbp : backpatchME tokens with
      | error e =>
        simp only [EvaluateSession, EvaluateME, String.toList, hemp, if_false, htok, hbp]
      | ok entries =>
        have hcache : instEntries i (w ++ tagEntries i entries) = entries := by
          rw [instEntries_append, instEntries_of_not_mem i w h, instEntries_tag]
          rfl
        simp only [EvaluateSession, EvaluateME, String.toList, hemp, if_false, htok, hbp,
          hcache]

/-! ## Claim theorems -/

/-- C2 counterexample: the function-call pair token `ln(`
(a `MathExpressions::Function`) has `GetPriority` 4, which differs from
the maximal priority value of leaf/numeric tokens, so not every
paired-construct token kind has the numeric tokens' maximal priority. -/
theorem c2_function_priority_counterexample :
    GetPriority .logarithmE ≠ GetPriority .number := by decide

/-- C2 (amended): bracket pairs and modulus pairs have `GetPriority` equal
to the maximal priority of leaf/numeric tokens (`SIZE_MAX`), but
function-call pairs have `GetPriority` 4 instead. -/
theorem c2_paired_priority_amended (k : TokenKind) :
    ((k = .bracket false ∨ k = .bracket true ∨ k = .modBracket) →
      GetPriority k = GetPriority .number) ∧
    (isFunctionKind k = true → GetPriority k = some 4) := by
  constructor
  · intro h
    rcases h with h | h | h <;> subst h <;> rfl
  · intro h
    cases k <;> first | rfl | simp [isFunctionKind] at h

/-- C2 witness: the amended statement at the modulus pair and at the
natural-logarithm function pair. -/
theorem c2_paired_priority_amended_witness :
    GetPriority .modBracket = GetPriority .number ∧
    GetPriority .logarithmE = some 4 :=
  ⟨(c2_paired_priority_amended .modBracket).1 (Or.inr (Or.inr rfl)),
   (c2_paired_priority_amended .logarithmE).2 rfl⟩

/-- C7: `ParamSeparator::SplitPoints` raises the separator-outside-function
error for every token slice and position, never returning child slices;
consequently an expression whose precedence-selection root is a parameter
separator, such as `2,3`, fails with that error. -/
theorem c7_param_separator_split (cache : PairCacheL) (tokens : List Token)
    (fuel lo hi root : Nat) (h : kindAt tokens root = .paramSeparator) :
    splitPointsME cache tokens fuel lo hi root = .error .unexpectedSeparator ∧
    (∀ ops env, EvaluateME ops "2,3" env = .error .unexpectedSeparator) := by
  constructor
  · simp [splitPointsME, h]
  · intro ops env
    rfl

/-- C7 witness: the separator's split rule at a concrete one-token slice,
and the `2,3` evaluation error. -/
theorem c7_param_separator_split_witness :
    splitPointsME [] [⟨.paramSeparator, ","⟩] 1 0 1 0 = .error .unexpectedSeparator ∧
    EvaluateME dummyOps "2,3" [] = .error .unexpectedSeparator := by
  have h := c7_param_separator_split [] [⟨.paramSeparator, ","⟩] 1 0 1 0 rfl
  exact ⟨h.1, h.2 dummyOps []⟩

/-- C8: `Variable::Evaluate` looks the token's source name up in the
environment, returning its binding when present and failing with the
unresolved-symbol error carrying the name when absent; in particular
`y+1` under the empty environment fails with unresolved symbol `y`, and
`x*2` with `x` bound to 3 evaluates to 6. -/
theorem c8_variable_evaluation (ops : Ops) (env : Env) (nm : String)
    (cs : List AST) (fuel : Nat) :
    evalNode ops env (fuel + 1) (.node ⟨.varTok, nm⟩ cs) =
      (match env.lookup nm with
       | some v => .ok v
       | none => .error (.unresolvedSymbol nm)) ∧
    EvaluateME ops "y+1" [] = .error (.unresolvedSymbol "y") ∧
    EvaluateME ops "x*2" [("x", 3)] = .ok 6 := by
  refine ⟨?_, rfl, rfl⟩
  cases hl : env.lookup nm with
  | some v => simp [evalNode, evalAll, evalPre, applyToken, isLeafKind, hl]
  | none => simp [evalNode, evalAll, evalPre, applyToken, isLeafKind, hl]

/-- C10: the Euler-number recognizer is ordered before free-form variable
recognition in `GetTokenFactories`, so the input `e` always tokenizes as
the Euler constant and never as a variable, and `Evaluate` on `e` returns
Euler's number under every environment — including one that binds the
name `e`. -/
theorem c10_euler_shadows_variable (ops : Ops) (env : Env) (v : ℚ) :
    tokenizeME "e" = .ok [⟨.exponentConst, "e"⟩] ∧
    EvaluateME ops "e" env = .ok ops.eulerConst ∧
    EvaluateME ops "e" (("e", v) :: env) = .ok ops.eulerConst :=
  ⟨rfl, rfl, rfl⟩

/-- C3 (code bug): `MET_HyperbolicArctangentFactory` constructs a
`HyperbolicTangent` token, so its recognized spelling `atgh(` evaluates
the argument with the hyperbolic tangent primitive rather than the
hyperbolic arctangent one — which the (never constructed)
`HyperbolicArctangent` class would apply; moreover the shared cursor of
`TokenFromEitherStrings` keeps the later aliases from matching after
`atgh(` partially matches, so `atanh(0.5)` tokenizes its name as a
variable and fails with an unresolved-symbol error. -/
theorem c3_hyperbolic_arctangent_code_bug (ops : Ops) (env : Env) :
    hyperbolicArctangentFactory "atgh(0.5)".toList 0 =
      .ok (some (⟨.hyperbolicTangent, "atgh("⟩, 5)) ∧
    EvaluateME ops "atgh(0.5)" env = .ok (ops.tanhf (1/2)) ∧
    evalNode ops env 5
        (.node ⟨.hyperbolicArctangent, "atanh("⟩ [.node ⟨.number, "0.5"⟩ []]) =
      .ok (ops.atanhf (1/2)) ∧
    EvaluateME ops "atanh(0.5)" [] = .error (.unresolvedSymbol "atanh") :=
  ⟨rfl, rfl, rfl, rfl⟩

/-- C1 (code bug): `log(8,2)` parses and evaluates to `ln 8 / ln 2`, but
`ArgumentedFunction::Stringify` emits no closing bracket, so the
stringified tree is `log(8, 2`, whose re-tokenization leaves the function
token without a matching closing bracket and re-parsing fails with the
no-matching-token error instead of evaluating to the same result. -/
theorem c1_stringify_roundtrip_failure (ops : Ops) (env : Env) :
    EvaluateME ops "log(8,2)" env = .ok (ops.ln 8 / ops.ln 2) ∧
    StringifyParsed "log(8,2)" = .ok "log(8, 2" ∧
    EvaluateME ops "log(8, 2" env = .error .noMatchingToken :=
  ⟨rfl, rfl, rfl⟩

/-- C4: `Pow::Evaluate` first fails with the wrong-sub-expression-count
error unless the node has exactly 2 children (the check precedes any
child evaluation); with two children evaluating to base `b` and exponent
`p` it fails with the negative-number-root error exactly when `p < 1` and
`b < 0`, and otherwise returns `powl b p`. -/
theorem c4_pow_evaluation (ops : Ops) (env : Env) (fuel : Nat) (src : String)
    (cs : List AST) (b p : ℚ) :
    (cs.length ≠ 2 →
      evalNode ops env (fuel + 1) (.node ⟨.pow, src⟩ cs) = .error (.count 2 cs.length)) ∧
    (evalAll ops env fuel cs = .ok [b, p] →
      evalNode ops env (fuel + 1) (.node ⟨.pow, src⟩ cs) =
        if p < 1 ∧ b < 0 then .error .negativeNumberRoot else .ok (ops.powf b p)) := by
  constructor
  · intro hne
    simp [evalNode, evalAll, evalPre, hne]
  · intro h
    have hlen : cs.length = 2 := by
      simpa using (evalAll_length ops env fuel cs [b, p] h).symm
    simp only [evalNode, evalAll, evalPre, applyToken, isLeafKind, hlen, h]
    by_cases hc : p < 1 ∧ b < 0
    · simp [hc]
    · simp [hc]

/-- C4 witness: a `Pow` node over `-8` and `0.5` fails with the
negative-number-root error, and a one-child `Pow` node fails with the
wrong-sub-expression-count error. -/
theorem c4_pow_evaluation_witness :
    evalNode dummyOps [] 6
        (.node ⟨.pow, "^"⟩
          [.node ⟨.sub, "-"⟩ [.node ⟨.number, "8"⟩ []], .node ⟨.number, "0.5"⟩ []]) =
      .error .negativeNumberRoot ∧
    evalNode dummyOps [] 6 (.node ⟨.pow, "^"⟩ [.node ⟨.number, "2"⟩ []]) =
      .error (.count 2 1) := by
  constructor
  · have h := (c4_pow_evaluation dummyOps [] 5 "^"
      [.node ⟨.sub, "-"⟩ [.node ⟨.number, "8"⟩ []], .node ⟨.number, "0.5"⟩ []]
      (-8) (1/2)).2 (by rfl)
    have hc : (1 : ℚ)/2 < 1 ∧ (-8 : ℚ) < 0 := by
      constructor <;> decide
    exact h.trans (if_pos hc)
  · exact (c4_pow_evaluation dummyOps [] 5 "^" [.node ⟨.number, "2"⟩ []] 0 0).1 (by decide)

/-- C5: `Div::Evaluate` with children evaluating to `v0, r1, ...` divides
`v0` sequentially by the rest and fails with the division-by-zero error
exactly when some divisor is zero (the zero check precedes each
division, so the error is raised at the first zero divisor). -/
theorem c5_div_evaluation (ops : Ops) (env : Env) (fuel : Nat) (src : String)
    (cs : List AST) (v0 r1 : ℚ) (rs : List ℚ)
    (h : evalAll ops env fuel cs = .ok (v0 :: r1 :: rs)) :
    evalNode ops env (fuel + 1) (.node ⟨.div, src⟩ cs) =
      if 0 ∈ r1 :: rs then .error .divisionByZero
      else .ok ((r1 :: rs).foldl (· / ·) v0) := by
  simp only [evalNode, evalAll, evalPre, applyToken, isLeafKind, h, divFold_eq]
  by_cases hc : (0 : ℚ) ∈ r1 :: rs
  · simp at hc
    simp [hc]
  · simp at hc
    simp [hc]

/-- C5 witness: `6/3` evaluates to 2 and `5/0` fails with the
division-by-zero error. -/
theorem c5_div_evaluation_witness :
    evalNode dummyOps [] 6
        (.node ⟨.div, "/"⟩ [.node ⟨.number, "6"⟩ [], .node ⟨.number, "3"⟩ []]) = .ok 2 ∧
    evalNode dummyOps [] 6
        (.node ⟨.div, "/"⟩ [.node ⟨.number, "5"⟩ [], .node ⟨.number, "0"⟩ []]) =
      .error .divisionByZero := by
  constructor
  · have h := c5_div_evaluation dummyOps [] 5 "/"
      [.node ⟨.number, "6"⟩ [], .node ⟨.number, "3"⟩ []] 6 3 [] (by rfl)
    rw [h, if_neg (by decide)]
    rfl
  · have h := c5_div_evaluation dummyOps [] 5 "/"
      [.node ⟨.number, "5"⟩ [], .node ⟨.number, "0"⟩ []] 5 0 [] (by rfl)
    rw [h, if_pos (by decide)]

/-- C6: `Sub::Evaluate` with one child negates that child's value, with
two children subtracts the second from the first, and with no children
fails with the wrong-sub-expression-count error; end to end,
`Evaluate("-5+3")` is -2 and `Evaluate("3--2")` is 5. -/
theorem c6_sub_unary_negation (ops : Ops) (env : Env) (fuel : Nat) (src : String)
    (cs : List AST) (v a b : ℚ) :
    (cs = [] → evalNode ops env (fuel + 1) (.node ⟨.sub, src⟩ cs) = .error (.count 0 1)) ∧
    (evalAll ops env fuel cs = .ok [v] →
      evalNode ops env (fuel + 1) (.node ⟨.sub, src⟩ cs) = .ok (-v)) ∧
    (evalAll ops env fuel cs = .ok [a, b] →
      evalNode ops env (fuel + 1) (.node ⟨.sub, src⟩ cs) = .ok (a - b)) ∧
    (∀ ops2 env2, EvaluateME ops2 "-5+3" env2 = .ok (-2)) ∧
    (∀ ops2 env2, EvaluateME ops2 "3--2" env2 = .ok 5) := by
  refine ⟨?_, ?_, ?_, fun ops2 env2 => rfl, fun ops2 env2 => rfl⟩
  · intro hnil
    subst hnil
    simp [evalNode, evalAll, evalPre]
  · intro h
    have hlen : cs.length = 1 := by
      simpa using (evalAll_length ops env fuel cs [v] h).symm
    simp [evalNode, evalAll, evalPre, applyToken, isLeafKind, hlen, h]
  · intro h
    have hlen : cs.length = 2 := by
      simpa using (evalAll_length ops env fuel cs [a, b] h).symm
    simp [evalNode, evalAll, evalPre, applyToken, isLeafKind, hlen, h]

/-- C6 witness: a childless `Sub` node errors, a one-child `Sub` node
negates, and a two-child `Sub` node subtracts. -/
theorem c6_sub_unary_negation_witness :
    evalNode dummyOps [] 6 (.node ⟨.sub, "-"⟩ []) = .error (.count 0 1) ∧
    evalNode dummyOps [] 6 (.node ⟨.sub, "-"⟩ [.node ⟨.number, "7"⟩ []]) = .ok (-7) ∧
    evalNode dummyOps [] 6
        (.node ⟨.sub, "-"⟩ [.node ⟨.number, "7"⟩ [], .node ⟨.number, "3"⟩ []]) = .ok 4 := by
  refine ⟨(c6_sub_unary_negation dummyOps [] 5 "-" [] 0 0 0).1 rfl,
    (c6_sub_unary_negation dummyOps [] 5 "-" [.node ⟨.number, "7"⟩ []] 7 0 0).2.1 (by rfl),
    ?_⟩
  have h := (c6_sub_unary_negation dummyOps [] 5 "-"
    [.node ⟨.number, "7"⟩ [], .node ⟨.number, "3"⟩ []] 0 7 3).2.2.1 (by rfl)
  rw [h]
  rfl

/-- C9: two successive invocations of `Evaluate` on the same text and
environment produce equal outcomes — the pair-matching cache entries a
call stores are keyed to its own freshly constructed token instances, so
nothing a first call leaves behind can change a second call's result. -/
theorem c9_evaluate_deterministic (ops : Ops) (expr : String) (env : Env)
    (w : World) (i j : Nat)
    (hi2 : ∀ p q, ((i, p), q) ∉ w) (hj : ∀ p q, ((j, p), q) ∉ w) (hij : j ≠ i) :
    (EvaluateSession ops j (EvaluateSession ops i w expr env).2 expr env).1 =
      (EvaluateSession ops i w expr env).1 := by
  have h2 : ∀ p q, ((j, p), q) ∉ (EvaluateSession ops i w expr env).2 := by
    intro p q hm
    rcases session_world_keys ops i w expr env j p q hm with hmem | heq2
    · exact hj p q hmem
    · exact hij heq2
  rw [evaluateSession_fresh ops j _ expr env h2,
      evaluateSession_fresh ops i w expr env hi2]

/-- C9 witness: two successive calls on `(1+1)*3` (whose bracket token
exercises the pair cache) agree. -/
theorem c9_evaluate_deterministic_witness :
    (EvaluateSession dummyOps 1 (EvaluateSession dummyOps 0 [] "(1+1)*3" []).2 "(1+1)*3" []).1 =
      (EvaluateSession dummyOps 0 [] "(1+1)*3" []).1 :=
  c9_evaluate_deterministic dummyOps "(1+1)*3" [] [] 0 1
    (fun _ _ h => List.not_mem_nil _ h) (fun _ _ h => List.not_mem_nil _ h) (by decide)
